import Mathlib

/-!
A shallow embedding of the retry / circuit-breaker library in `src/index.ts`
(`@corvid-agent/retry`), together with theorems checking its specification.

Modelling conventions:

* JS numbers are modelled as `ℚ` where they hold delay/backoff arithmetic
  (`baseDelay`, `maxDelay`, `factor`, computed delays, `Math.random()` draws)
  and as `ℤ` where they hold `Date.now()` timestamps; attempt counters and
  failure counters are `ℕ`.
* `retry` is an `async function`, so every `throw` in its body is delivered as
  a rejection of the returned promise.  The embedding therefore returns a
  `JsOutcome` that is either `resolved` (the promise resolves) or `rejected`
  (the promise rejects); an `async` function has no synchronous-throw channel.
* An `AbortSignal` is modelled by the index on the poll timeline from which
  `aborted` reads `true`, together with the resolved value of
  `signal.reason ?? new DOMException("Aborted", "AbortError")`.
  Attempt `n` (1-based) owns timeline indices `5*n .. 5*n+4`:
  `5*n` is the loop-top `signal?.aborted` check, `5*n+1` the operation's
  execution, `5*n+2` the post-failure `signal?.aborted` check, `5*n+3` the
  `signal?.aborted` check at `sleep` entry, and `5*n+4` an abort event firing
  while the sleep timer is pending.  `aborted` is monotone by construction.
* Mutable ambient state that a JS operation closure may touch (in particular a
  `CircuitBreaker` instance in `callWithRetry`) is threaded as an explicit
  state `σ`; the user operation is `ℕ → σ → Except ε α × σ`, giving the
  settled outcome of `fn(attempt)` and the updated ambient state.
* Side effects are recorded as explicit events: operation invocations,
  `onRetry` hook invocations (with the exact arguments the hook observes) and
  completed sleeps are `Ev` values in execution order; `onStateChange` hook
  invocations are `(from, to)` pairs returned by each breaker operation.
-/

namespace RetryLib

variable {ε α σ : Type}

/-- Circuit breaker states (`"closed" | "open" | "half-open"`); `open` is a
Lean keyword, so the `"open"` state is named `opened` here. -/
inductive CircuitState where
  | closed
  | opened
  | halfOpen
  deriving DecidableEq

/-- Outcome of a JS promise: an `async` function either resolves or rejects. -/
inductive JsOutcome (ε α : Type) where
  | resolved (v : α)
  | rejected (e : ε)
  deriving DecidableEq

/-- Values an invocation of `retry` can reject with: the
`RangeError("maxAttempts must be >= 1")` thrown by the validation, a
`RetryError(message, attempts, lastError)`, or a raw re-thrown value (an
operation error, or an abort reason). -/
inductive ErrVal (ε : Type) where
  | rangeError
  | retryError (attempts : ℕ) (lastError : Option ε)
  | raw (e : ε)
  deriving DecidableEq

/-- `RetryResult<T>`: resolved data plus the number of attempts consumed. -/
structure RetryResult (α : Type) where
  data : α
  attempts : ℕ
  deriving DecidableEq

/-- A one-shot abort signal: `abortTime` is the index on the poll timeline
from which `aborted` reads `true`; `reason` is the resolved value of
`signal.reason ?? new DOMException("Aborted", "AbortError")`. -/
structure AbortSig (ε : Type) where
  abortTime : ℕ
  reason : ε
  deriving DecidableEq

/-- Decidable equality for settled operation outcomes. -/
instance [DecidableEq ε] [DecidableEq α] : DecidableEq (Except ε α) :=
  fun x y =>
    match x, y with
    | .ok a, .ok b =>
      if h : a = b then .isTrue (by rw [h])
      else .isFalse (by intro hh; injection hh; contradiction)
    | .error e, .error e' =>
      if h : e = e' then .isTrue (by rw [h])
      else .isFalse (by intro hh; injection hh; contradiction)
    | .ok _, .error _ => .isFalse (fun hh => Except.noConfusion hh)
    | .error _, .ok _ => .isFalse (fun hh => Except.noConfusion hh)

/-- Polling `signal?.aborted` at timeline index `t`: returns `some reason`
exactly when the signal is present and aborted at that moment. -/
def pollAbort (sg : Option (AbortSig ε)) (t : ℕ) : Option ε :=
  match sg with
  | none => none
  | some a => if a.abortTime ≤ t then some a.reason else none

/-- `computeDelay(attempt, baseDelay, maxDelay, factor, jitter)` from the
source; `rand` is the `Math.random()` draw used when jitter is enabled. -/
def computeDelay (attempt : ℕ) (baseDelay maxDelay factor : ℚ) (jitter : Bool)
    (rand : ℚ) : ℚ :=
  let exponential := baseDelay * factor ^ (attempt - 1)
  let capped := min exponential maxDelay
  if !jitter then capped
  else ((⌊rand * capped⌋ : ℤ) : ℚ)

/-- Observable events of one `retry` invocation, in execution order: an
invocation of `fn(attempt)`, an invocation of `onRetry(error, attempt, delay)`,
and a sleep of `delay` that completed without being aborted. -/
inductive Ev (ε : Type) where
  | opCall (attempt : ℕ)
  | hook (e : ε) (attempt : ℕ) (delay : ℚ)
  | sleepDone (attempt : ℕ) (delay : ℚ)
  deriving DecidableEq

/-- The source's `retryIf && !retryIf(error, attempt)` test: `true` exactly
when a configured predicate rejects this error. -/
def retryIfRejects (retryIf : Option (ε → ℕ → Bool)) (e : ε) (attempt : ℕ) :
    Bool :=
  match retryIf with
  | some p => !p e attempt
  | none => false

/-- `RetryOptions` with the defaults of the source's destructuring.  The
`onRetry` hook is not a field: its invocations (with the arguments it
observes) are recorded as `Ev.hook` events instead. -/
structure RetryOpts (ε : Type) where
  maxAttempts : ℕ := 3
  baseDelay : ℚ := 1000
  maxDelay : ℚ := 30000
  factor : ℚ := 2
  jitter : Bool := true
  retryIf : Option (ε → ℕ → Bool) := none
  signal : Option (AbortSig ε) := none

/-- The `for (let attempt = 1; attempt <= maxAttempts; attempt++)` loop of
`retry`.  `remaining` is the number of loop iterations still allowed
(`maxAttempts - attempt + 1` at every reachable call); the loop-exit check is
the source's `attempt === maxAttempts` break.  Returns the promise outcome,
the event trace, and the final ambient state. -/
def retryLoop (fn : ℕ → σ → Except ε α × σ) (retryIf : Option (ε → ℕ → Bool))
    (sg : Option (AbortSig ε)) (maxAttempts : ℕ)
    (baseDelay maxDelay factor : ℚ) (jitter : Bool) (rand : ℕ → ℚ) :
    ℕ → ℕ → Option ε → σ → JsOutcome (ErrVal ε) (RetryResult α) × List (Ev ε) × σ
  | _attempt, 0, lastError, s =>
    -- loop exhausted: `throw new RetryError(..., maxAttempts, lastError)`
    (.rejected (.retryError maxAttempts lastError), [], s)
  | attempt, remaining + 1, _lastError, s =>
    match pollAbort sg (5 * attempt) with
    | some r =>
      -- loop-top `throw signal.reason ?? ...`, caught, `signal?.aborted` is
      -- still true, so the reason is re-thrown unwrapped
      (.rejected (.raw r), [], s)
    | none =>
      match fn attempt s with
      | (.ok a, s1) => (.resolved ⟨a, attempt⟩, [.opCall attempt], s1)
      | (.error e, s1) =>
        match pollAbort sg (5 * attempt + 2) with
        | some _ =>
          -- "Don't retry if this was an abort": `throw error` unwrapped
          (.rejected (.raw e), [.opCall attempt], s1)
        | none =>
          if retryIfRejects retryIf e attempt then
            (.rejected (.raw e), [.opCall attempt], s1)
          else if attempt = maxAttempts then
            -- `break`, then `throw new RetryError(..., maxAttempts, lastError)`
            (.rejected (.retryError maxAttempts (some e)), [.opCall attempt], s1)
          else
            let delay := computeDelay attempt baseDelay maxDelay factor jitter
              (rand attempt)
            match pollAbort sg (5 * attempt + 4) with
            | some r =>
              -- sleep rejected (already aborted at entry, or aborted while
              -- the timer was pending): reject with the signal's reason
              (.rejected (.raw r), [.opCall attempt, .hook e attempt delay], s1)
            | none =>
              let rest := retryLoop fn retryIf sg maxAttempts baseDelay
                maxDelay factor jitter rand (attempt + 1) remaining (some e) s1
              (rest.1,
               .opCall attempt :: .hook e attempt delay ::
                 .sleepDone attempt delay :: rest.2.1,
               rest.2.2)

/-- `retry(fn, options)`: validate `maxAttempts`, then run the attempt loop
starting at attempt 1.  `rand` supplies the `Math.random()` draw of each
attempt's `computeDelay` call. -/
def retry (fn : ℕ → σ → Except ε α × σ) (opts : RetryOpts ε) (rand : ℕ → ℚ)
    (s : σ) : JsOutcome (ErrVal ε) (RetryResult α) × List (Ev ε) × σ :=
  if opts.maxAttempts < 1 then
    -- `throw new RangeError("maxAttempts must be >= 1")` — rejected, since
    -- `retry` is an `async function`
    (.rejected .rangeError, [], s)
  else
    retryLoop fn opts.retryIf opts.signal opts.maxAttempts opts.baseDelay
      opts.maxDelay opts.factor opts.jitter rand 1 opts.maxAttempts none s

/-- `CircuitBreakerOptions` with the constructor's defaults. -/
structure CBConfig where
  failureThreshold : ℕ := 5
  resetTimeout : ℤ := 60000
  halfOpenSuccesses : ℕ := 1

/-- The mutable instance state of a `CircuitBreaker`. -/
structure CB where
  state : CircuitState := .closed
  failures : ℕ := 0
  successes : ℕ := 0
  lastFailureTime : ℤ := 0
  deriving DecidableEq

/-- `transition(to)`: change the state and fire `onStateChange` exactly when
the state actually changes; hook invocations are returned as `(from, to)`
events. -/
def transition (cb : CB) (t : CircuitState) :
    CB × List (CircuitState × CircuitState) :=
  if cb.state ≠ t then ({ cb with state := t }, [(cb.state, t)])
  else (cb, [])

/-- `checkHalfOpen()`: the lazy open→half-open transition, evaluated on each
access; `now` is the value of `Date.now()` read at the access. -/
def checkHalfOpen (cfg : CBConfig) (cb : CB) (now : ℤ) :
    CB × List (CircuitState × CircuitState) :=
  if cb.state = .opened ∧ cfg.resetTimeout ≤ now - cb.lastFailureTime then
    let p := transition cb .halfOpen
    ({ p.1 with successes := 0 }, p.2)
  else (cb, [])

/-- `onSuccess()`. -/
def onSuccess (cfg : CBConfig) (cb : CB) :
    CB × List (CircuitState × CircuitState) :=
  if cb.state = .halfOpen then
    let cb1 := { cb with successes := cb.successes + 1 }
    if cfg.halfOpenSuccesses ≤ cb1.successes then
      let p := transition cb1 .closed
      ({ p.1 with failures := 0, successes := 0 }, p.2)
    else (cb1, [])
  else ({ cb with failures := 0 }, [])

/-- `onFailure()`; `now` is the `Date.now()` read stored into
`lastFailureTime`. -/
def onFailure (cfg : CBConfig) (cb : CB) (now : ℤ) :
    CB × List (CircuitState × CircuitState) :=
  let cb1 := { cb with failures := cb.failures + 1, lastFailureTime := now }
  if cb1.state = .halfOpen then transition cb1 .opened
  else if cfg.failureThreshold ≤ cb1.failures then transition cb1 .opened
  else (cb1, [])

/-- `getState()`: runs the lazy half-open check, then reports the state. -/
def getState (cfg : CBConfig) (cb : CB) (now : ℤ) :
    CircuitState × CB × List (CircuitState × CircuitState) :=
  let p := checkHalfOpen cfg cb now
  (p.1.state, p.1, p.2)

/-- `getFailures()`: the method body is `return this.failures` — no half-open
check, no state writes; in state-passing form it returns the field, the
unchanged instance state, and no hook events. -/
def getFailures (cb : CB) : ℕ × CB × List (CircuitState × CircuitState) :=
  (cb.failures, cb, [])

/-- `reset()`: force a transition to closed and zero both counters. -/
def reset (cb : CB) : CB × List (CircuitState × CircuitState) :=
  let p := transition cb .closed
  ({ p.1 with failures := 0, successes := 0 }, p.2)

/-- Errors a `CircuitBreaker.call` can reject with: a
`CircuitOpenError(failures)` thrown without invoking the operation, or the
operation's own error re-thrown unchanged. -/
inductive CallErr (ε : Type) where
  | circuitOpen (failures : ℕ)
  | raw (e : ε)
  deriving DecidableEq

/-- `call(fn)`: `res` is the settled outcome of `fn()` if it is invoked,
`now` the `Date.now()` read inside `checkHalfOpen`, `nowFail` the read inside
`onFailure`.  The final `Bool` records whether `fn` was invoked. -/
def call (cfg : CBConfig) (cb : CB) (res : Except ε α) (now nowFail : ℤ) :
    Except (CallErr ε) α × CB × List (CircuitState × CircuitState) × Bool :=
  let p := checkHalfOpen cfg cb now
  if p.1.state = .opened then
    (.error (.circuitOpen p.1.failures), p.1, p.2, false)
  else
    match res with
    | .ok a =>
      let q := onSuccess cfg p.1
      (.ok a, q.1, p.2 ++ q.2, true)
    | .error e =>
      let q := onFailure cfg p.1 nowFail
      (.error (.raw e), q.1, p.2 ++ q.2, true)

/-- The retry predicate `callWithRetry` installs: reject a `CircuitOpenError`
unconditionally, otherwise defer to the caller-supplied predicate, defaulting
to retry (`retryOptions.retryIf?.(error, attempt) ?? true`). -/
def effRetryIf (p : Option (CallErr ε → ℕ → Bool)) (e : CallErr ε)
    (attempt : ℕ) : Bool :=
  match e with
  | .circuitOpen _ => false
  | _ =>
    match p with
    | some q => q e attempt
    | none => true

/-- The per-attempt operation `callWithRetry` hands to `retry`: run the
caller's `fn(attempt)` through `call`, threading the breaker instance state
and accumulating its `onStateChange` events.  `times attempt` gives the two
`Date.now()` reads of that attempt's `call`. -/
def cbStep (cfg : CBConfig) (fn : ℕ → Except ε α) (times : ℕ → ℤ × ℤ) :
    ℕ → CB × List (CircuitState × CircuitState) →
      Except (CallErr ε) α × (CB × List (CircuitState × CircuitState)) :=
  fun attempt st =>
    let c := call cfg st.1 (fn attempt) (times attempt).1 (times attempt).2
    (c.1, (c.2.1, st.2 ++ c.2.2.1))

/-- `callWithRetry(fn, retryOptions)`: `retry` over `call`, with the
caller-supplied `retryIf` replaced by the breaker-aware predicate. -/
def callWithRetry (cfg : CBConfig) (fn : ℕ → Except ε α)
    (opts : RetryOpts (CallErr ε)) (times : ℕ → ℤ × ℤ) (rand : ℕ → ℚ)
    (cb : CB) :
    JsOutcome (ErrVal (CallErr ε)) (RetryResult α) × List (Ev (CallErr ε)) ×
      (CB × List (CircuitState × CircuitState)) :=
  retry (cbStep cfg fn times)
    { opts with retryIf := some (effRetryIf opts.retryIf) } rand (cb, [])

/-- Number of `Ev.opCall` events in a trace: how often `fn` was invoked. -/
def opCount : List (Ev ε) → ℕ
  | [] => 0
  | .opCall _ :: tr => opCount tr + 1
  | _ :: tr => opCount tr

/-- The `onRetry` invocations recorded in a trace, with their arguments, in
order. -/
def hookCalls : List (Ev ε) → List (ε × ℕ × ℚ)
  | [] => []
  | .hook e n d :: tr => (e, n, d) :: hookCalls tr
  | _ :: tr => hookCalls tr

/-- The trace block of one retried (non-final) failed attempt per listed
attempt number: invocation, hook, completed sleep. -/
def allFailTrace (errs : ℕ → ε) (dly : ℕ → ℚ) : List ℕ → List (Ev ε)
  | [] => []
  | n :: ns =>
    .opCall n :: .hook (errs n) n (dly n) :: .sleepDone n (dly n) ::
      allFailTrace errs dly ns

/-- Iterated failing calls through a breaker: `applyFailures cfg e ts cb k` is
the breaker state after `k` calls whose operation fails with `e`, the `i`-th
call using the `Date.now()` reads `ts i`. -/
def applyFailures (cfg : CBConfig) (e : ε) (ts : ℕ → ℤ × ℤ) (cb : CB) :
    ℕ → CB
  | 0 => cb
  | k + 1 =>
    (call cfg (applyFailures cfg e ts cb k) (.error e : Except ε Unit)
      (ts (k + 1)).1 (ts (k + 1)).2).2.1


/-- C1: with jitter disabled, the delay computed after failed attempt `n ≥ 1`
is exactly `min (baseDelay * factor ^ (n - 1)) maxDelay`; in particular
`baseDelay = 0` yields delay `0` (for a non-negative `maxDelay`) and
`factor = 1` yields the constant capped delay `min baseDelay maxDelay`. -/
theorem computeDelay_noJitter_exact (n : ℕ) (_hn : 1 ≤ n) (b m f rand : ℚ)
    (hm : 0 ≤ m) :
    computeDelay n b m f false rand = min (b * f ^ (n - 1)) m ∧
    computeDelay n 0 m f false rand = 0 ∧
    computeDelay n b m 1 false rand = min b m := by
  refine ⟨rfl, ?_, ?_⟩
  · show min (0 * f ^ (n - 1)) m = 0
    rw [zero_mul]
    exact min_eq_left hm
  · show min (b * 1 ^ (n - 1)) m = min b m
    rw [one_pow, mul_one]

/-- Witness for C1 at `n = 2`, `b = 3`, `m = 0`, `f = 5`. -/
theorem computeDelay_noJitter_exact_w :
    1 ≤ 2 ∧ (0 : ℚ) ≤ 0 ∧
      (computeDelay 2 3 0 5 false 7 = min (3 * 5 ^ (2 - 1)) 0 ∧
       computeDelay 2 0 0 5 false 7 = 0 ∧
       computeDelay 2 3 0 1 false 7 = min 3 0) :=
  ⟨by decide, le_refl 0,
   computeDelay_noJitter_exact 2 (by decide) 3 0 5 7 (le_refl 0)⟩

/-- Helper: a full characterisation of the retry loop over an operation that
fails at every attempt, with no predicate and no signal: the outcome is the
`RetryError`, the trace is one op/hook/sleep block per non-final attempt
followed by the final invocation, and the ambient state is folded through. -/
theorem retryLoop_allFail {ε α σ : Type} (errs : ℕ → ε) (upd : ℕ → σ → σ)
    (maxA : ℕ) (b m f : ℚ) (j : Bool) (rand : ℕ → ℚ) :
    ∀ (remaining attempt : ℕ) (le : Option ε) (s : σ),
      attempt + remaining = maxA + 1 → 1 ≤ remaining →
      retryLoop (fun n t => ((.error (errs n) : Except ε α), upd n t)) none none
          maxA b m f j rand attempt remaining le s
        = (.rejected (.retryError maxA (some (errs maxA))),
           allFailTrace errs (fun n => computeDelay n b m f j (rand n))
               (List.range' attempt (remaining - 1)) ++ [.opCall maxA],
           (List.range' attempt remaining).foldl (fun t n => upd n t) s) := by
  intro remaining
  induction remaining with
  | zero => intro attempt le s _ h2; omega
  | succ r ih =>
    intro attempt le s h1 _
    by_cases hlast : attempt = maxA
    · have hr : r = 0 := by omega
      subst hr
      subst hlast
      simp [retryLoop, pollAbort, retryIfRejects, allFailTrace, List.range'_one]
    · have hr1 : 1 ≤ r := by omega
      have hrec := ih (attempt + 1) (some (errs attempt)) (upd attempt s)
        (by omega) hr1
      rw [retryLoop]
      simp only [pollAbort, retryIfRejects]
      rw [if_neg hlast]
      simp only [Bool.false_eq_true, if_false]
      rw [hrec]
      obtain ⟨rr, rfl⟩ : ∃ rr, r = rr + 1 := ⟨r - 1, by omega⟩
      simp [allFailTrace, List.range'_succ]

/-- Helper: `opCount` is additive over trace concatenation. -/
theorem opCount_append (l1 l2 : List (Ev ε)) :
    opCount (l1 ++ l2) = opCount l1 + opCount l2 := by
  induction l1 with
  | nil => simp [opCount]
  | cons ev tr ih =>
    cases ev with
    | opCall n =>
      simp [opCount, ih]
      omega
    | hook e n d => simp [opCount, ih]
    | sleepDone n d => simp [opCount, ih]

/-- Helper: each block of `allFailTrace` holds exactly one invocation. -/
theorem opCount_allFailTrace (errs : ℕ → ε) (dly : ℕ → ℚ) (l : List ℕ) :
    opCount (allFailTrace errs dly l) = l.length := by
  induction l with
  | nil => rfl
  | cons n ns ih => simp [allFailTrace, opCount, ih]

/-- Helper: the hook invocations of an all-fail trace, one per listed
attempt, in order, with the attempt's error and delay as arguments. -/
theorem hookCalls_allFailTrace (errs : ℕ → ε) (dly : ℕ → ℚ) (x : ℕ)
    (l : List ℕ) :
    hookCalls (allFailTrace errs dly l ++ [.opCall x])
      = l.map (fun n => (errs n, n, dly n)) := by
  induction l with
  | nil => rfl
  | cons n ns ih => simp [allFailTrace, hookCalls, ih]

/-- C2: for an operation failing on every invocation, `maxAttempts = N ≥ 1`,
no retry predicate and no cancellation signal, `retry` invokes the operation
exactly `N` times and rejects with the terminal `RetryError` carrying
`attempts = N` and the last captured operation error. -/
theorem retry_allFail_exhausts {ε α σ : Type} (N : ℕ) (hN : 1 ≤ N)
    (errs : ℕ → ε) (upd : ℕ → σ → σ) (b m f : ℚ) (j : Bool) (rand : ℕ → ℚ)
    (s : σ) :
    (retry (fun n t => ((.error (errs n) : Except ε α), upd n t))
        ⟨N, b, m, f, j, none, none⟩ rand s).1
      = .rejected (.retryError N (some (errs N))) ∧
    opCount (retry (fun n t => ((.error (errs n) : Except ε α), upd n t))
        ⟨N, b, m, f, j, none, none⟩ rand s).2.1 = N := by
  have h := retryLoop_allFail (α := α) errs upd N b m f j rand N 1 none s (by omega) hN
  have hretry : retry (fun n t => ((.error (errs n) : Except ε α), upd n t))
      ⟨N, b, m, f, j, none, none⟩ rand s
      = retryLoop (fun n t => ((.error (errs n) : Except ε α), upd n t)) none
          none N b m f j rand 1 N none s := by
    rw [retry, if_neg (show ¬N < 1 by omega)]
  rw [hretry, h]
  refine ⟨rfl, ?_⟩
  rw [opCount_append, opCount_allFailTrace]
  simp [opCount]
  omega

/-- Witness for C2 at `N = 2`. -/
theorem retry_allFail_exhausts_w :
    1 ≤ 2 ∧
      ((retry (fun n (t : Unit) => ((.error n : Except ℕ ℕ), t))
          ⟨2, 1, 5, 2, false, none, none⟩ (fun _ => 0) ()).1
        = .rejected (.retryError 2 (some 2)) ∧
       opCount (retry (fun n (t : Unit) => ((.error n : Except ℕ ℕ), t))
          ⟨2, 1, 5, 2, false, none, none⟩ (fun _ => 0) ()).2.1 = 2) :=
  ⟨by decide,
   retry_allFail_exhausts 2 (by decide) (fun n => n) (fun _ t => t) 1 5 2 false
     (fun _ => 0) ()⟩

/-- C7: `onRetry` fires exactly once per retried (non-final) failed attempt
— with the error, the failed 1-based attempt number and the delay before the
next attempt — strictly before the corresponding sleep (the trace order), and
never after the final attempt's failure; with `maxAttempts = 3`, jitter
disabled and an operation failing twice then succeeding, it fires exactly
twice, with delays `baseDelay` and `baseDelay * factor` when below the cap. -/
theorem retry_onRetry_hook {ε α σ : Type} (a : α) (errs : ℕ → ε) (b m f : ℚ)
    (rand : ℕ → ℚ) (s : σ) (hb : b ≤ m) (hbf : b * f ≤ m) :
    (∀ (N : ℕ), 1 ≤ N → ∀ (upd : ℕ → σ → σ),
      hookCalls (retry (fun n t => ((.error (errs n) : Except ε α), upd n t))
          ⟨N, b, m, f, false, none, none⟩ rand s).2.1
        = (List.range' 1 (N - 1)).map
            (fun n => (errs n, n, min (b * f ^ (n - 1)) m))) ∧
    retry (fun n t =>
        ((if n < 3 then .error (errs n) else .ok a : Except ε α), t))
        ⟨3, b, m, f, false, none, none⟩ rand s
      = (.resolved ⟨a, 3⟩,
         [.opCall 1, .hook (errs 1) 1 b, .sleepDone 1 b,
          .opCall 2, .hook (errs 2) 2 (b * f), .sleepDone 2 (b * f),
          .opCall 3], s) := by
  have d1 : computeDelay 1 b m f false (rand 1) = b := by
    show min (b * f ^ (1 - 1)) m = b
    rw [pow_zero, mul_one]
    exact min_eq_left hb
  have d2 : computeDelay 2 b m f false (rand 2) = b * f := by
    show min (b * f ^ (2 - 1)) m = b * f
    rw [pow_one]
    exact min_eq_left hbf
  constructor
  · intro N hN upd
    have h := retryLoop_allFail (α := α) errs upd N b m f false rand N 1
      none s (by omega) hN
    have hretry : retry (fun n t => ((.error (errs n) : Except ε α), upd n t))
        ⟨N, b, m, f, false, none, none⟩ rand s
        = retryLoop (fun n t => ((.error (errs n) : Except ε α), upd n t)) none
            none N b m f false rand 1 N none s := by
      rw [retry, if_neg (show ¬N < 1 by omega)]
    rw [hretry, h, hookCalls_allFailTrace]
    rfl
  · simp [retry, retryLoop, pollAbort, retryIfRejects, d1, d2]

/-- Witness for C7 at `b = m = f = 0`. -/
theorem retry_onRetry_hook_w :
    (0 : ℚ) ≤ 0 ∧ (0 : ℚ) * 0 ≤ 0 ∧
      ((∀ (N : ℕ), 1 ≤ N → ∀ (upd : ℕ → Unit → Unit),
        hookCalls (retry (fun n t => ((.error n : Except ℕ ℕ), upd n t))
            ⟨N, 0, 0, 0, false, none, none⟩ (fun _ => 0) ()).2.1
          = (List.range' 1 (N - 1)).map
              (fun n => (n, n, min ((0 : ℚ) * 0 ^ (n - 1)) 0))) ∧
      retry (fun n (t : Unit) =>
          ((if n < 3 then .error n else .ok 7 : Except ℕ ℕ), t))
          ⟨3, 0, 0, 0, false, none, none⟩ (fun _ => 0) ()
        = (.resolved ⟨7, 3⟩,
           [.opCall 1, .hook 1 1 0, .sleepDone 1 0,
            .opCall 2, .hook 2 2 ((0 : ℚ) * 0), .sleepDone 2 ((0 : ℚ) * 0),
            .opCall 3], ())) :=
  ⟨le_refl 0, le_of_eq (zero_mul 0),
   retry_onRetry_hook 7 (fun n => n) 0 0 0 (fun _ => 0) () (le_refl 0)
     (le_of_eq (zero_mul 0))⟩

/-- Helper: if the signal aborts while the sleep after failed attempt `k`
is pending (`k` below the attempt bound), the loop runs attempts
`attempt .. k` normally and then rejects with the signal's reason; the trace
ends with the hook of attempt `k` and no completed sleep for it. -/
theorem retryLoop_abortSleep {ε α σ : Type} (errs : ℕ → ε) (upd : ℕ → σ → σ)
    (N k : ℕ) (r : ε) (b m f : ℚ) (j : Bool) (rand : ℕ → ℚ) (hkN : k < N) :
    ∀ (c attempt : ℕ) (le : Option ε) (s : σ),
      attempt + c = k → 1 ≤ attempt →
      retryLoop (fun n t => ((.error (errs n) : Except ε α), upd n t)) none
          (some ⟨5 * k + 4, r⟩) N b m f j rand attempt (N - attempt + 1) le s
        = (.rejected (.raw r),
           allFailTrace errs (fun n => computeDelay n b m f j (rand n))
               (List.range' attempt (k - attempt)) ++
             [.opCall k, .hook (errs k) k
                (computeDelay k b m f j (rand k))],
           (List.range' attempt (k - attempt + 1)).foldl
             (fun t n => upd n t) s) := by
  intro c
  induction c with
  | zero =>
    intro attempt le s h1 h2
    have ha : attempt = k := by omega
    subst ha
    rw [retryLoop]
    simp only [pollAbort]
    rw [if_neg (show ¬5 * attempt + 4 ≤ 5 * attempt by omega)]
    simp only [retryIfRejects, Bool.false_eq_true, if_false]
    rw [if_neg (show ¬5 * attempt + 4 ≤ 5 * attempt + 2 by omega)]
    rw [if_neg (show ¬attempt = N by omega)]
    rw [if_pos (show 5 * attempt + 4 ≤ 5 * attempt + 4 by omega)]
    simp [allFailTrace, List.range'_one]
  | succ c ih =>
    intro attempt le s h1 h2
    have hlt : attempt < k := by omega
    have hrec := ih (attempt + 1) (some (errs attempt)) (upd attempt s)
      (by omega) (by omega)
    rw [retryLoop]
    simp only [pollAbort]
    rw [if_neg (show ¬5 * k + 4 ≤ 5 * attempt by omega)]
    simp only [retryIfRejects, Bool.false_eq_true, if_false]
    rw [if_neg (show ¬5 * k + 4 ≤ 5 * attempt + 2 by omega)]
    rw [if_neg (show ¬attempt = N by omega)]
    rw [if_neg (show ¬5 * k + 4 ≤ 5 * attempt + 4 by omega)]
    rw [show N - attempt = N - (attempt + 1) + 1 by omega, hrec]
    rw [show k - attempt = k - (attempt + 1) + 1 by omega]
    simp [allFailTrace, List.range'_succ]

/-- C6: if the cancellation signal becomes cancelled during the
inter-attempt sleep after failed attempt `k < maxAttempts`, the sleep aborts
and `retry` rejects with the signal's reason — a value distinct from every
`RetryError` — after exactly `k` operation invocations, even though attempts
remain. -/
theorem retry_cancelled_midSleep {ε α σ : Type} (N k : ℕ) (hk : 1 ≤ k)
    (hkN : k < N) (errs : ℕ → ε) (upd : ℕ → σ → σ) (r : ε) (b m f : ℚ)
    (j : Bool) (rand : ℕ → ℚ) (s : σ) :
    (retry (fun n t => ((.error (errs n) : Except ε α), upd n t))
        ⟨N, b, m, f, j, none, some ⟨5 * k + 4, r⟩⟩ rand s).1
      = .rejected (.raw r) ∧
    opCount (retry (fun n t => ((.error (errs n) : Except ε α), upd n t))
        ⟨N, b, m, f, j, none, some ⟨5 * k + 4, r⟩⟩ rand s).2.1 = k ∧
    (∀ (attempts : ℕ) (le : Option ε),
      (ErrVal.raw r : ErrVal ε) ≠ .retryError attempts le) := by
  have h := retryLoop_abortSleep (α := α) errs upd N k r b m f j rand hkN
    (k - 1) 1 none s (by omega) (by omega)
  have hretry : retry (fun n t => ((.error (errs n) : Except ε α), upd n t))
      ⟨N, b, m, f, j, none, some ⟨5 * k + 4, r⟩⟩ rand s
      = retryLoop (fun n t => ((.error (errs n) : Except ε α), upd n t)) none
          (some ⟨5 * k + 4, r⟩) N b m f j rand 1 N none s := by
    rw [retry, if_neg (show ¬N < 1 by omega)]
  rw [show N - 1 + 1 = N by omega] at h
  rw [hretry, h]
  refine ⟨rfl, ?_, ?_⟩
  · rw [opCount_append, opCount_allFailTrace]
    simp [opCount]
    omega
  · intro attempts le hne
    exact ErrVal.noConfusion hne


/-- Witness for C6 at `N = 2`, `k = 1`, reason `99`. -/
theorem retry_cancelled_midSleep_w :
    1 ≤ 1 ∧ 1 < 2 ∧
      ((retry (fun n (t : Unit) => ((.error n : Except ℕ ℕ), t))
          ⟨2, 0, 0, 0, false, none, some ⟨5 * 1 + 4, 99⟩⟩ (fun _ => 0) ()).1
        = .rejected (.raw 99) ∧
       opCount (retry (fun n (t : Unit) => ((.error n : Except ℕ ℕ), t))
          ⟨2, 0, 0, 0, false, none, some ⟨5 * 1 + 4, 99⟩⟩ (fun _ => 0) ()).2.1
         = 1 ∧
       (∀ (attempts : ℕ) (le : Option ℕ),
         (ErrVal.raw 99 : ErrVal ℕ) ≠ .retryError attempts le)) :=
  ⟨by decide, by decide,
   retry_cancelled_midSleep 2 1 (by decide) (by decide) (fun n => n)
     (fun _ t => t) 99 0 0 0 false (fun _ => 0) ()⟩

/-- Helper: a failing call through a closed breaker invokes the operation,
re-throws its error wrapped as the raw value, and applies `onFailure`. -/
theorem call_fail_closed {ε α : Type} (cfg : CBConfig) (cb : CB) (e : ε)
    (t1 t2 : ℤ) (hst : cb.state = .closed) :
    call cfg cb (.error e : Except ε α) t1 t2
      = (.error (.raw e), (onFailure cfg cb t2).1, (onFailure cfg cb t2).2,
         true) := by
  have hch : checkHalfOpen cfg cb t1 = (cb, []) := by
    rw [checkHalfOpen, if_neg (by simp [hst])]
  simp [call, hch, hst]

/-- Helper: a call on an open breaker before `resetTimeout` has elapsed is
rejected with `CircuitOpenError` carrying the current failure count, without
invoking the operation, changing state, or firing the hook. -/
theorem call_open_noInvoke {ε α : Type} (cfg : CBConfig) (cb : CB)
    (res : Except ε α) (now nowFail : ℤ) (hst : cb.state = .opened)
    (hlt : now - cb.lastFailureTime < cfg.resetTimeout) :
    call cfg cb res now nowFail
      = (.error (.circuitOpen cb.failures), cb, [], false) := by
  have hch : checkHalfOpen cfg cb now = (cb, []) := by
    rw [checkHalfOpen, if_neg (by intro h; omega)]
  simp [call, hch, hst]

/-- Helper: below the failure threshold, iterated failing calls keep a
fresh closed breaker closed and count the failures. -/
theorem applyFailures_below {ε : Type} (cfg : CBConfig) (e : ε)
    (ts : ℕ → ℤ × ℤ) (cb : CB) (hst : cb.state = .closed)
    (hf : cb.failures = 0) :
    ∀ k, k < cfg.failureThreshold →
      (applyFailures cfg e ts cb k).state = .closed ∧
      (applyFailures cfg e ts cb k).failures = k := by
  intro k
  induction k with
  | zero => intro _; exact ⟨hst, hf⟩
  | succ k ih =>
    intro hk
    obtain ⟨ihs, ihf⟩ := ih (by omega)
    have hth : ¬cfg.failureThreshold ≤ k + 1 := by omega
    simp only [applyFailures]
    rw [call_fail_closed cfg _ e _ _ ihs]
    rw [onFailure]
    simp [ihs, ihf, hth]

/-- C3: from a closed breaker with zero failures, `failureThreshold ≥ 1`
consecutive failing calls transition it to open with
`failures = failureThreshold`; every subsequent call made while it is still
open (before `resetTimeout` elapses) rejects with `CircuitOpenError` carrying
the current failure count, leaves the breaker unchanged, and does not invoke
the wrapped operation. -/
theorem breaker_opens_at_threshold {ε : Type} (cfg : CBConfig)
    (hT : 1 ≤ cfg.failureThreshold) (e : ε) (ts : ℕ → ℤ × ℤ) (cb : CB)
    (hst : cb.state = .closed) (hf : cb.failures = 0) :
    (applyFailures cfg e ts cb cfg.failureThreshold).state = .opened ∧
    (applyFailures cfg e ts cb cfg.failureThreshold).failures
      = cfg.failureThreshold ∧
    (∀ (β : Type) (res : Except ε β) (now nowFail : ℤ),
      now - (applyFailures cfg e ts cb cfg.failureThreshold).lastFailureTime
          < cfg.resetTimeout →
      call cfg (applyFailures cfg e ts cb cfg.failureThreshold) res now nowFail
        = (.error (.circuitOpen cfg.failureThreshold),
           applyFailures cfg e ts cb cfg.failureThreshold, [], false)) := by
  obtain ⟨ihs, ihf⟩ := applyFailures_below cfg e ts cb hst hf
    (cfg.failureThreshold - 1) (by omega)
  have hunfold : applyFailures cfg e ts cb cfg.failureThreshold
      = (call cfg (applyFailures cfg e ts cb (cfg.failureThreshold - 1))
          (.error e : Except ε Unit) (ts ((cfg.failureThreshold - 1) + 1)).1
          (ts ((cfg.failureThreshold - 1) + 1)).2).2.1 := by
    conv_lhs => rw [show cfg.failureThreshold
      = (cfg.failureThreshold - 1) + 1 by omega]
    rfl
  have hstep : (applyFailures cfg e ts cb cfg.failureThreshold).state = .opened
      ∧ (applyFailures cfg e ts cb cfg.failureThreshold).failures
        = cfg.failureThreshold := by
    rw [hunfold, call_fail_closed cfg _ e _ _ ihs, onFailure]
    have hgt : cfg.failureThreshold ≤ cfg.failureThreshold - 1 + 1 := by omega
    simp [ihs, ihf, transition, hgt]
    omega
  refine ⟨hstep.1, hstep.2, ?_⟩
  intro β res now nowFail hlt
  rw [call_open_noInvoke cfg _ res now nowFail hstep.1 hlt, hstep.2]

/-- Witness for C3 at threshold `2`. -/
theorem breaker_opens_at_threshold_w :
    1 ≤ 2 ∧ (⟨.closed, 0, 7, 3⟩ : CB).state = .closed ∧
      (⟨.closed, 0, 7, 3⟩ : CB).failures = 0 ∧
      ((applyFailures ⟨2, 60000, 1⟩ (5 : ℕ) (fun i => (i, i))
          ⟨.closed, 0, 7, 3⟩ 2).state = .opened ∧
       (applyFailures ⟨2, 60000, 1⟩ (5 : ℕ) (fun i => (i, i))
          ⟨.closed, 0, 7, 3⟩ 2).failures = 2 ∧
       (∀ (β : Type) (res : Except ℕ β) (now nowFail : ℤ),
         now - (applyFailures ⟨2, 60000, 1⟩ (5 : ℕ) (fun i => (i, i))
             ⟨.closed, 0, 7, 3⟩ 2).lastFailureTime < 60000 →
         call ⟨2, 60000, 1⟩ (applyFailures ⟨2, 60000, 1⟩ (5 : ℕ)
             (fun i => (i, i)) ⟨.closed, 0, 7, 3⟩ 2) res now nowFail
           = (.error (.circuitOpen 2),
              applyFailures ⟨2, 60000, 1⟩ (5 : ℕ) (fun i => (i, i))
                ⟨.closed, 0, 7, 3⟩ 2, [], false))) :=
  ⟨by decide, by decide, by decide,
   breaker_opens_at_threshold ⟨2, 60000, 1⟩ (by decide) 5 (fun i => (i, i))
     ⟨.closed, 0, 7, 3⟩ (by decide) (by decide)⟩


/-- C4: an open breaker transitions to half-open exactly when it is next
accessed (`getState` or `call`) with `resetTimeout ≤ now - lastFailureTime`:
such an access at any later time reports half-open and fires the state-change
hook once; an access before the timeout reports open and leaves the breaker
untouched; a `call` after the timeout invokes the operation, while a `call`
before it rejects without invoking.  The embedding is pure state passing, so
no transition can occur between accesses: an unaccessed breaker stays open
arbitrarily long past the timeout. -/
theorem breaker_lazy_halfOpen (cfg : CBConfig) (cb : CB) (now : ℤ)
    (h1 : cb.state = .opened) :
    (cfg.resetTimeout ≤ now - cb.lastFailureTime →
      getState cfg cb now
        = (.halfOpen, { cb with state := .halfOpen, successes := 0 },
           [(.opened, .halfOpen)])) ∧
    (now - cb.lastFailureTime < cfg.resetTimeout →
      getState cfg cb now = (.opened, cb, [])) ∧
    (∀ (ε' β : Type) (res : Except ε' β) (nowFail : ℤ),
      cfg.resetTimeout ≤ now - cb.lastFailureTime →
      (call cfg cb res now nowFail).2.2.2 = true) ∧
    (∀ (ε' β : Type) (res : Except ε' β) (nowFail : ℤ),
      now - cb.lastFailureTime < cfg.resetTimeout →
      call cfg cb res now nowFail
        = (.error (.circuitOpen cb.failures), cb, [], false)) := by
  refine ⟨?_, ?_, ?_, ?_⟩
  · intro h2
    have hch : checkHalfOpen cfg cb now
        = ({ cb with state := .halfOpen, successes := 0 },
           [(.opened, .halfOpen)]) := by
      rw [checkHalfOpen, if_pos ⟨h1, h2⟩, transition, if_pos (by simp [h1])]
      simp [h1]
    simp [getState, hch]
  · intro h2
    have hch : checkHalfOpen cfg cb now = (cb, []) := by
      rw [checkHalfOpen, if_neg (by intro h; omega)]
    simp [getState, hch, h1]
  · intro ε' β res nowFail h2
    have hch : checkHalfOpen cfg cb now
        = ({ cb with state := .halfOpen, successes := 0 },
           [(.opened, .halfOpen)]) := by
      rw [checkHalfOpen, if_pos ⟨h1, h2⟩, transition, if_pos (by simp [h1])]
      simp [h1]
    cases res <;> simp [call, hch]
  · intro ε' β res nowFail h2
    exact call_open_noInvoke cfg cb res now nowFail h1 h2

/-- Witness for C4, accessing an open breaker after and before timeout. -/
theorem breaker_lazy_halfOpen_w :
    ((⟨.opened, 2, 0, 0⟩ : CB).state = .opened) ∧
    ((50 : ℤ) ≤ 60 - 0) ∧ ((60 : ℤ) - 0 < 100) ∧
      ((getState ⟨1, 50, 1⟩ ⟨.opened, 2, 0, 0⟩ 60
          = (.halfOpen, ⟨.halfOpen, 2, 0, 0⟩, [(.opened, .halfOpen)])) ∧
       (getState ⟨1, 100, 1⟩ ⟨.opened, 2, 0, 0⟩ 60
          = (.opened, ⟨.opened, 2, 0, 0⟩, [])) ∧
       ((call ⟨1, 50, 1⟩ ⟨.opened, 2, 0, 0⟩ (.ok 3 : Except ℕ ℕ)
           60 61).2.2.2 = true) ∧
       (call ⟨1, 100, 1⟩ ⟨.opened, 2, 0, 0⟩ (.ok 3 : Except ℕ ℕ) 60 61
          = (.error (.circuitOpen 2), ⟨.opened, 2, 0, 0⟩, [], false))) :=
  ⟨by decide, by decide, by decide,
   (breaker_lazy_halfOpen ⟨1, 50, 1⟩ ⟨.opened, 2, 0, 0⟩ 60 (by decide)).1
     (by decide),
   (breaker_lazy_halfOpen ⟨1, 100, 1⟩ ⟨.opened, 2, 0, 0⟩ 60
      (by decide)).2.1 (by decide),
   (breaker_lazy_halfOpen ⟨1, 50, 1⟩ ⟨.opened, 2, 0, 0⟩ 60 (by decide)).2.2.1
     ℕ ℕ (.ok 3) 61 (by decide),
   (breaker_lazy_halfOpen ⟨1, 100, 1⟩ ⟨.opened, 2, 0, 0⟩ 60
      (by decide)).2.2.2 ℕ ℕ (.ok 3) 61 (by decide)⟩

/-- C10: `getFailures()` is a pure read: it returns the current consecutive
failure count, leaves the instance state unchanged and fires no hook — even
for an open breaker past `resetTimeout`, where the same access through
`getState` would transition it to half-open and fire the hook. -/
theorem getFailures_pure_read (cfg : CBConfig) (cb : CB) (now : ℤ) :
    getFailures cb = (cb.failures, cb, []) ∧
    (cb.state = .opened → cfg.resetTimeout ≤ now - cb.lastFailureTime →
      (getState cfg cb now).2.1.state = .halfOpen ∧
      (getState cfg cb now).2.2 = [(.opened, .halfOpen)]) := by
  refine ⟨rfl, ?_⟩
  intro h1 h2
  have hch : checkHalfOpen cfg cb now
      = ({ cb with state := .halfOpen, successes := 0 },
         [(.opened, .halfOpen)]) := by
    rw [checkHalfOpen, if_pos ⟨h1, h2⟩, transition, if_pos (by simp [h1])]
    simp [h1]
  simp [getState, hch]

/-- Witness for C10 on an open breaker whose timeout has elapsed. -/
theorem getFailures_pure_read_w :
    ((⟨.opened, 4, 0, 0⟩ : CB).state = .opened) ∧ ((50 : ℤ) ≤ 60 - 0) ∧
      (getFailures ⟨.opened, 4, 0, 0⟩ = (4, ⟨.opened, 4, 0, 0⟩, []) ∧
       ((getState ⟨1, 50, 1⟩ ⟨.opened, 4, 0, 0⟩ 60).2.1.state = .halfOpen ∧
        (getState ⟨1, 50, 1⟩ ⟨.opened, 4, 0, 0⟩ 60).2.2
          = [(.opened, .halfOpen)])) :=
  ⟨by decide, by decide,
   (getFailures_pure_read ⟨1, 50, 1⟩ ⟨.opened, 4, 0, 0⟩ 60).1,
   (getFailures_pure_read ⟨1, 50, 1⟩ ⟨.opened, 4, 0, 0⟩ 60).2 (by decide)
     (by decide)⟩

/-- C8 (amended): `successes` is reset to 0 on every transition into
half-open, on the half-open → closed transition, and on `reset()`; on the
half-open → open transition taken when a probe call fails it is left
unchanged (the stale value is unobservable, because re-entering half-open
resets it before use). -/
theorem successes_reset_policy (cfg : CBConfig) (cb : CB) (now : ℤ) :
    (cb.state = .opened → cfg.resetTimeout ≤ now - cb.lastFailureTime →
      (checkHalfOpen cfg cb now).1.successes = 0 ∧
      (checkHalfOpen cfg cb now).1.state = .halfOpen) ∧
    (cb.state = .halfOpen → cfg.halfOpenSuccesses ≤ cb.successes + 1 →
      (onSuccess cfg cb).1.successes = 0 ∧
      (onSuccess cfg cb).1.state = .closed) ∧
    (reset cb).1.successes = 0 ∧
    (cb.state = .halfOpen →
      (onFailure cfg cb now).1.state = .opened ∧
      (onFailure cfg cb now).1.successes = cb.successes) := by
  refine ⟨?_, ?_, rfl, ?_⟩
  · intro h1 h2
    rw [checkHalfOpen, if_pos ⟨h1, h2⟩, transition, if_pos (by simp [h1])]
    exact ⟨rfl, rfl⟩
  · intro h1 h2
    rw [onSuccess, if_pos h1]
    rw [if_pos (show cfg.halfOpenSuccesses
      ≤ ({ cb with successes := cb.successes + 1 } : CB).successes from h2)]
    rw [transition, if_pos (by simp [h1])]
    exact ⟨rfl, rfl⟩
  · intro h1
    rw [onFailure, if_pos (by simp [h1]), transition, if_pos (by simp [h1])]
    exact ⟨rfl, rfl⟩

/-- Witness for the amended C8 with `halfOpenSuccesses = 2`. -/
theorem successes_reset_policy_w :
    ((⟨.halfOpen, 1, 1, 0⟩ : CB).state = .halfOpen) ∧ (2 ≤ 1 + 1) ∧
      (((checkHalfOpen ⟨1, 10, 2⟩ ⟨.opened, 1, 1, 0⟩ 60).1.successes = 0 ∧
        (checkHalfOpen ⟨1, 10, 2⟩ ⟨.opened, 1, 1, 0⟩ 60).1.state = .halfOpen) ∧
       ((onSuccess ⟨1, 10, 2⟩ ⟨.halfOpen, 1, 1, 0⟩).1.successes = 0 ∧
        (onSuccess ⟨1, 10, 2⟩ ⟨.halfOpen, 1, 1, 0⟩).1.state = .closed) ∧
       (reset ⟨.halfOpen, 1, 1, 0⟩).1.successes = 0 ∧
       ((onFailure ⟨1, 10, 2⟩ ⟨.halfOpen, 1, 1, 0⟩ 60).1.state = .opened ∧
        (onFailure ⟨1, 10, 2⟩ ⟨.halfOpen, 1, 1, 0⟩ 60).1.successes = 1)) :=
  ⟨by decide, by decide,
   (successes_reset_policy ⟨1, 10, 2⟩ ⟨.opened, 1, 1, 0⟩ 60).1 (by decide)
     (by decide),
   (successes_reset_policy ⟨1, 10, 2⟩ ⟨.halfOpen, 1, 1, 0⟩ 60).2.1
     (by decide) (by decide),
   (successes_reset_policy ⟨1, 10, 2⟩ ⟨.halfOpen, 1, 1, 0⟩ 60).2.2.1,
   (successes_reset_policy ⟨1, 10, 2⟩ ⟨.halfOpen, 1, 1, 0⟩ 60).2.2.2
     (by decide)⟩

/-- C8 fails on the code: with `halfOpenSuccesses = 2`, a breaker reaches
half-open and records one probe success (`successes = 1`); the next probe
call fails, taking the half-open → open transition, and `successes` is still
`1` afterwards — `onFailure` never resets it. -/
theorem successes_not_reset_on_probe_failure :
    (let cfg : CBConfig := ⟨1, 10, 2⟩
     let s1 := (call cfg ⟨.closed, 0, 0, 0⟩ (.error 0 : Except ℕ Unit) 0 0).2.1
     let s2 := (getState cfg s1 10).2.1
     let s3 := (call cfg s2 (.ok () : Except ℕ Unit) 10 10).2.1
     let r4 := call cfg s3 (.error 0 : Except ℕ Unit) 10 10
     s3.state = .halfOpen ∧ s3.successes = 1 ∧
     r4.2.2.1 = [(.halfOpen, .opened)] ∧ r4.2.1.state = .opened ∧
     r4.2.1.successes = 1) := by decide

/-- C9 fails on the code: `retry` is an `async function`, so the
`maxAttempts < 1` `RangeError` is delivered as a rejection of the returned
promise — through the retry outcome channel — not as a synchronous raise;
at `maxAttempts = 0` the result is precisely the rejected `RangeError`
outcome, with the operation never invoked. -/
theorem rangeError_rejected_outcome :
    retry (fun n (t : Unit) => ((.ok n : Except ℕ ℕ), t))
        ⟨0, 1000, 30000, 2, true, none, none⟩ (fun _ => 0) ()
      = (.rejected .rangeError, [], ()) := by decide

/-- C9 (amended): for `maxAttempts < 1`, `retry` rejects with the
`RangeError` configuration error before any attempt: the operation is never
invoked, no event occurs and the ambient state is untouched; the error
arrives as the promise rejection, an `async function` having no
synchronous-throw channel. -/
theorem rangeError_before_any_attempt {ε α σ : Type}
    (fn : ℕ → σ → Except ε α × σ) (opts : RetryOpts ε) (rand : ℕ → ℚ) (s : σ)
    (h : opts.maxAttempts < 1) :
    retry fn opts rand s = (.rejected .rangeError, [], s) := by
  rw [retry, if_pos h]

/-- Witness for the amended C9 at `maxAttempts = 0`. -/
theorem rangeError_before_any_attempt_w :
    (0 < 1) ∧
      retry (fun n (t : Unit) => ((.error n : Except ℕ ℕ), t))
        ⟨0, 1000, 30000, 2, true, none, none⟩ (fun _ => 0) ()
        = (.rejected .rangeError, [], ()) :=
  ⟨by decide,
   rangeError_before_any_attempt (fun n (t : Unit) => ((.error n : Except ℕ ℕ), t))
     ⟨0, 1000, 30000, 2, true, none, none⟩ (fun _ => 0) () (by decide)⟩


/-- C5: `callWithRetry` never retries an attempt that failed with a
`CircuitOpenError`: the effective predicate it installs returns `false` for
every `CircuitOpenError` unconditionally and otherwise defers to the
caller-supplied predicate (defaulting to retry); an attempt whose `call`
rejects with `CircuitOpenError` terminates the loop immediately with that
error propagated unwrapped; concretely, with `failureThreshold = 2` and
`maxAttempts = 10`, the loop stops after 3 attempts with
`CircuitOpenError(2)` instead of exhausting `maxAttempts`. -/
theorem callWithRetry_neverRetries_circuitOpen :
    (∀ (ε : Type) (p : Option (CallErr ε → ℕ → Bool)) (fc attempt : ℕ),
      effRetryIf p (.circuitOpen fc) attempt = false) ∧
    (∀ (ε : Type) (q : CallErr ε → ℕ → Bool) (e : ε) (attempt : ℕ),
      effRetryIf (some q) (.raw e) attempt = q (.raw e) attempt ∧
      effRetryIf (none : Option (CallErr ε → ℕ → Bool)) (.raw e) attempt
        = true) ∧
    (∀ (ε α : Type) (cfg : CBConfig) (fn : ℕ → Except ε α)
       (p : Option (CallErr ε → ℕ → Bool)) (maxA : ℕ) (b m f : ℚ) (j : Bool)
       (rand : ℕ → ℚ) (times : ℕ → ℤ × ℤ) (attempt rm : ℕ)
       (le : Option (CallErr ε))
       (st : CB × List (CircuitState × CircuitState)) (fc : ℕ),
      (call cfg st.1 (fn attempt) (times attempt).1 (times attempt).2).1
          = .error (.circuitOpen fc) →
      retryLoop (cbStep cfg fn times) (some (effRetryIf p)) none maxA b m f j
          rand attempt (rm + 1) le st
        = (.rejected (.raw (.circuitOpen fc)), [.opCall attempt],
           (cbStep cfg fn times attempt st).2)) ∧
    ((callWithRetry ⟨2, 60000, 1⟩ (fun _ => (.error () : Except Unit Unit))
        ⟨10, 0, 30000, 2, false, none, none⟩ (fun _ => (0, 0)) (fun _ => 0)
        {}).1 = .rejected (.raw (.circuitOpen 2)) ∧
     opCount (callWithRetry ⟨2, 60000, 1⟩
        (fun _ => (.error () : Except Unit Unit))
        ⟨10, 0, 30000, 2, false, none, none⟩ (fun _ => (0, 0)) (fun _ => 0)
        {}).2.1 = 3 ∧
     (callWithRetry ⟨2, 60000, 1⟩ (fun _ => (.error () : Except Unit Unit))
        ⟨10, 0, 30000, 2, false, none, none⟩ (fun _ => (0, 0)) (fun _ => 0)
        {}).2.2 = (⟨.opened, 2, 0, 0⟩, [(.closed, .opened)])) := by
  refine ⟨fun ε p fc attempt => rfl,
          fun ε q e attempt => ⟨rfl, rfl⟩, ?_, by decide, by decide, by decide⟩
  intro ε α cfg fn p maxA b m f j rand times attempt rm le st fc hc
  have hpair : cbStep cfg fn times attempt st
      = (.error (.circuitOpen fc), (cbStep cfg fn times attempt st).2) := by
    have h1 : (cbStep cfg fn times attempt st).1 = .error (.circuitOpen fc) :=
      hc
    rw [← h1]
  rw [retryLoop]
  simp only [pollAbort]
  rw [hpair]
  simp [retryIfRejects, effRetryIf]

/-- Witness for C5's termination step on an already-open breaker. -/
theorem callWithRetry_neverRetries_circuitOpen_w :
    ((call ⟨1, 60000, 1⟩ ((⟨.opened, 1, 0, 0⟩, []) :
          CB × List (CircuitState × CircuitState)).1
        ((fun _ => (.error () : Except Unit Unit)) 1)
        ((fun _ => ((0 : ℤ), (0 : ℤ))) 1).1
        ((fun _ => ((0 : ℤ), (0 : ℤ))) 1).2).1 = .error (.circuitOpen 1)) ∧
    retryLoop (cbStep ⟨1, 60000, 1⟩ (fun _ => (.error () : Except Unit Unit))
        (fun _ => (0, 0))) (some (effRetryIf none)) none 5 0 0 0 false
        (fun _ => 0) 1 (0 + 1) none (⟨.opened, 1, 0, 0⟩, [])
      = (.rejected (.raw (.circuitOpen 1)), [.opCall 1],
         (cbStep ⟨1, 60000, 1⟩ (fun _ => (.error () : Except Unit Unit))
           (fun _ => (0, 0)) 1 (⟨.opened, 1, 0, 0⟩, [])).2) :=
  ⟨by decide,
   callWithRetry_neverRetries_circuitOpen.2.2.1 Unit Unit ⟨1, 60000, 1⟩
     (fun _ => (.error () : Except Unit Unit)) none 5 0 0 0 false (fun _ => 0)
     (fun _ => (0, 0)) 1 0 none (⟨.opened, 1, 0, 0⟩, []) 1 (by decide)⟩

end RetryLib
